import Mathlib

/-!
# Expensify: budget forms and spending report

A shallow embedding of the budget form handlers (`CreateBudget.jsx`,
`EditBudget.jsx`), of the report generator (`report/page.jsx`) and of the
dashboard totals (`layout.jsx`).

Modelling conventions.

* A JavaScript number is a `JSNum`: `NaN`, `Infinity`, `-Infinity` or a finite
  value.  Finite values are exact rationals: the rounding of IEEE doubles and
  the sign of zero are not modelled.
* An asynchronous handler is a function from the component state and the
  outcome of its database call to the list of effects it performs, in order.
  Console diagnostics are not effects.
* The object `nameSpend` is a list of `(key, value)` pairs in insertion order;
  `ownEntries` enumerates it in the order of `Object.entries`.  Keys inherited
  from `Object.prototype` are not modelled.
-/

namespace Expensify

/-! ## JavaScript numbers -/

/-- A JavaScript number; finite values are exact. -/
inductive JSNum where
  | nan : JSNum
  | posInf : JSNum
  | negInf : JSNum
  | fin (q : ℚ) : JSNum
  deriving DecidableEq, Repr

namespace JSNum

/-- The global `isNaN` on a number. -/
def isNaN : JSNum → Bool
  | nan => true
  | _ => false

/-- The relational operator `a < b`. -/
def lt : JSNum → JSNum → Bool
  | nan, _ => false
  | _, nan => false
  | posInf, _ => false
  | _, negInf => false
  | negInf, _ => true
  | _, posInf => true
  | fin a, fin b => decide (a < b)

/-- The relational operator `a <= b`. -/
def le : JSNum → JSNum → Bool
  | nan, _ => false
  | _, nan => false
  | negInf, _ => true
  | _, posInf => true
  | posInf, _ => false
  | _, negInf => false
  | fin a, fin b => decide (a ≤ b)

/-- Strict equality `a === b` of two numbers. -/
def strictEq : JSNum → JSNum → Bool
  | nan, _ => false
  | _, nan => false
  | posInf, posInf => true
  | negInf, negInf => true
  | fin a, fin b => decide (a = b)
  | _, _ => false

/-- The remainder `a % b`: the result has the sign of the dividend. -/
def mod : JSNum → JSNum → JSNum
  | nan, _ => nan
  | _, nan => nan
  | posInf, _ => nan
  | negInf, _ => nan
  | fin a, posInf => fin a
  | fin a, negInf => fin a
  | fin a, fin b =>
    if b = 0 then nan
    else
      let t : ℤ := if 0 ≤ a / b then ⌊a / b⌋ else ⌈a / b⌉
      fin (a - b * t)

/-- The quotient `a / b` of two finite numbers. -/
def divFin (a b : ℚ) : JSNum :=
  if b = 0 then
    if a = 0 then nan else if 0 < a then posInf else negInf
  else fin (a / b)

/-- The product `x * c` of a number and a finite number. -/
def mulFin : JSNum → ℚ → JSNum
  | nan, _ => nan
  | posInf, c => if c = 0 then nan else if 0 < c then posInf else negInf
  | negInf, c => if c = 0 then nan else if 0 < c then negInf else posInf
  | fin a, c => fin (a * c)

end JSNum

/-! ## Strings -/

/-- The code points removed by `String.prototype.trim` and skipped by
`parseFloat`: WhiteSpace and LineTerminator of ECMAScript. -/
def isWhiteSpace (c : Char) : Bool :=
  let n := c.toNat
  n = 0x09 || n = 0x0A || n = 0x0B || n = 0x0C || n = 0x0D || n = 0x20 ||
  n = 0xA0 || n = 0x1680 || (0x2000 ≤ n && n ≤ 0x200A) || n = 0x2028 ||
  n = 0x2029 || n = 0x202F || n = 0x205F || n = 0x3000 || n = 0xFEFF

/-- The method `String.prototype.trim`. -/
def trim (s : String) : String :=
  ⟨((s.data.dropWhile isWhiteSpace).reverse.dropWhile isWhiteSpace).reverse⟩

/-- The value of a decimal digit. -/
def digitValue (c : Char) : ℕ := c.toNat - '0'.toNat

/-- The value of a string of decimal digits, most significant first. -/
def digitsValue (ds : List Char) : ℕ :=
  ds.foldl (fun acc c => 10 * acc + digitValue c) 0

/-- The number `m * 10 ^ e`. -/
def scale10 (m : ℚ) (e : ℤ) : ℚ :=
  if 0 ≤ e then m * (10 : ℚ) ^ e.toNat else m / (10 : ℚ) ^ (-e).toNat

/-- The exponent denoted by what follows the mantissa: `e` or `E`, an optional
sign and at least one digit; anything else is not part of the literal. -/
def exponentPart : List Char → ℤ
  | [] => 0
  | c :: r =>
    if c = 'e' ∨ c = 'E' then
      match r with
      | '+' :: r1 =>
        if r1.takeWhile Char.isDigit = [] then 0
        else (digitsValue (r1.takeWhile Char.isDigit) : ℤ)
      | '-' :: r1 =>
        if r1.takeWhile Char.isDigit = [] then 0
        else -(digitsValue (r1.takeWhile Char.isDigit) : ℤ)
      | _ =>
        if r.takeWhile Char.isDigit = [] then 0
        else (digitsValue (r.takeWhile Char.isDigit) : ℤ)
    else 0

/-- The unsigned part of a `StrDecimalLiteral`: `Infinity`, or digits with an
optional fraction and exponent; `none` when no prefix is a literal. -/
def unsignedLiteral (cs : List Char) : Option (Option ℚ) :=
  if "Infinity".data.isPrefixOf cs then some none
  else
    let intDigits := cs.takeWhile Char.isDigit
    let rest := cs.dropWhile Char.isDigit
    let fracDigits := match rest with
      | '.' :: r => r.takeWhile Char.isDigit
      | _ => []
    let rest2 := match rest with
      | '.' :: r => r.dropWhile Char.isDigit
      | _ => rest
    if intDigits = [] ∧ fracDigits = [] then none
    else
      some (some (scale10 (digitsValue (intDigits ++ fracDigits))
        (exponentPart rest2 - fracDigits.length)))

/-- The global `parseFloat` on a string: leading white space is skipped and
the longest prefix that is a decimal literal is read. -/
def parseFloat (s : String) : JSNum :=
  let cs := s.data.dropWhile isWhiteSpace
  let neg := match cs with
    | '-' :: _ => true
    | _ => false
  let body := match cs with
    | '-' :: r => r
    | '+' :: r => r
    | _ => cs
  match unsignedLiteral body with
  | none => JSNum.nan
  | some none => if neg then JSNum.negInf else JSNum.posInf
  | some (some q) => JSNum.fin (if neg then -q else q)

/-- Every code point of the string is white space (in particular, the string
may be empty). -/
def blank (s : String) : Bool := s.data.all isWhiteSpace

/-! ## Effects of the form handlers -/

/-- The values of `db.insert(Budgets).values(..)`. -/
structure BudgetValues where
  name : String
  amount : JSNum
  createdBy : Option String
  icon : String
  deriving DecidableEq, Repr

/-- The fields of `db.update(Budgets).set(..)` and the id of
`.where(eq(Budgets.id, budgetInfo.id))`. -/
structure BudgetUpdate where
  id : ℕ
  name : String
  amount : JSNum
  icon : String
  deriving DecidableEq, Repr

/-- What a handler does, as seen from outside. -/
inductive Effect where
  | toast (message : String)
  | toastError (message : String)
  | toastSuccess (message : String)
  | insert (values : BudgetValues)
  | update (fields : BudgetUpdate)
  | refreshData
  | setOpenDialog (value : Bool)
  deriving DecidableEq, Repr

/-- How an awaited database call ends: it throws, or it resolves to a result
that is truthy or falsy. -/
inductive DbOutcome where
  | throws
  | returns (truthy : Bool)
  deriving DecidableEq, Repr

/-- The value of `openDialog` after the effects, starting from `value`. -/
def openDialogAfter (value : Bool) : List Effect → Bool
  | [] => value
  | Effect.setOpenDialog b :: rest => openDialogAfter b rest
  | _ :: rest => openDialogAfter value rest

/-! ## `CreateBudget.jsx` -/

/-- The state of the `CreateBudget` component. -/
structure CreateBudgetState where
  emojiIcon : String
  name : String
  amount : String
  openDialog : Bool
  deriving DecidableEq, Repr

/-- What `onCreateBudget` reads besides the state: whether `db && db.insert`
holds, `user?.primaryEmailAddress?.emailAddress`, and how the insert ends. -/
structure CreateBudgetEnv where
  dbReady : Bool
  userEmail : Option String
  insertOutcome : BudgetValues → DbOutcome

/-- The handler `onCreateBudget` of `CreateBudget.jsx`; `refreshData` is taken
not to throw. -/
def onCreateBudget (env : CreateBudgetEnv) (s : CreateBudgetState) : List Effect :=
  if !env.dbReady then
    [Effect.toast "Database connection error."]
  else if s.name = "" ∨ trim s.name = "" then
    [Effect.toast "Please enter a valid budget name."]
  else
    let parsedAmount := parseFloat s.amount
    if s.amount = "" ∨ parsedAmount.isNaN = true ∨ JSNum.le parsedAmount (JSNum.fin 0) = true ∨
        JSNum.strictEq (JSNum.mod parsedAmount (JSNum.fin 1)) (JSNum.fin 0) = false then
      [Effect.toast "Please enter a valid budget amount (positive integer, no decimals)."]
    else
      let values : BudgetValues :=
        { name := s.name
          amount := parsedAmount
          createdBy := env.userEmail
          icon := s.emojiIcon }
      match env.insertOutcome values with
      | DbOutcome.returns true =>
        [Effect.insert values, Effect.refreshData, Effect.toast "New Budget Created!",
          Effect.setOpenDialog false]
      | DbOutcome.returns false =>
        [Effect.insert values, Effect.toast "Failed to create budget."]
      | DbOutcome.throws =>
        [Effect.insert values, Effect.toast "An error occurred while creating the budget."]

/-- The notices with which `onCreateBudget` reports a failure. -/
def createFailureNotices : List String :=
  [ "Database connection error.",
    "Please enter a valid budget name.",
    "Please enter a valid budget amount (positive integer, no decimals).",
    "Failed to create budget.",
    "An error occurred while creating the budget." ]

/-! ## `EditBudget.jsx` -/

/-- The array index a property key denotes, if any: a canonical numeric string
with value below `2 ^ 32 - 1`. -/
def arrayIndex (key : String) : Option ℕ :=
  let cs := key.data
  if cs ≠ [] ∧ cs.all Char.isDigit = true ∧ (cs.head? ≠ some '0' ∨ cs.length = 1) ∧
      digitsValue cs < 2 ^ 32 - 1 then
    some (digitsValue cs)
  else none

/-- The order of `Object.keys`, `Object.values` and `Object.entries`: array
indices in ascending order, then the other keys in insertion order. -/
def ownEntries (obj : List (String × ℚ)) : List (String × ℚ) :=
  (obj.filter (fun e => (arrayIndex e.1).isSome)).insertionSort
      (fun a b => (arrayIndex a.1).getD 0 ≤ (arrayIndex b.1).getD 0) ++
    obj.filter (fun e => (arrayIndex e.1).isNone)

/-- The digits of `k` on at least two places. -/
def pad2 (k : ℕ) : String :=
  if k < 10 then "0" ++ Nat.repr k else Nat.repr k

/-- The text of a decimal with two fraction digits: `hundredths / 100`, with a
minus sign when `negative`. -/
def renderFixed (negative : Bool) (hundredths : ℕ) : String :=
  (if negative then "-" else "") ++ Nat.repr (hundredths / 100) ++ "." ++ pad2 (hundredths % 100)

/-- The integer `n` for which `n / 100` is nearest to `|x|`, the larger one
when two are as near. -/
def nearestHundredths (x : ℚ) : ℕ := ⌊|x| * 100 + 1 / 2⌋.toNat

/-- The method `Number.prototype.toFixed(2)`. The exponent notation that takes
over from `1e21` on is not modelled. -/
def toFixed2 : JSNum → String
  | JSNum.nan => "NaN"
  | JSNum.posInf => "Infinity"
  | JSNum.negInf => "-Infinity"
  | JSNum.fin x => renderFixed (decide (x < 0)) (nearestHundredths x)

/-- The operand `Number(value) || 0` of the reducer, on a finite number. -/
def orZero (value : ℚ) : ℚ := if value = 0 then 0 else value

/-- The constant `totalSpend` of `generateAnalysisReport`. -/
def totalSpendOf (nameSpend : List (String × ℚ)) : ℚ :=
  ((ownEntries nameSpend).map Prod.snd).foldl (fun sum value => sum + orZero value) 0

/-- The comparator `([, a], [, b]) => Number(b) - Number(a)`. -/
def compareFn (x y : String × ℚ) : ℚ := y.2 - x.2

/-- The constant `sortedCategories` of `generateAnalysisReport`: `sort` is
stable, an entry stays before a later one unless the comparator is positive. -/
def sortedCategories (nameSpend : List (String × ℚ)) : List (String × ℚ) :=
  (ownEntries nameSpend).insertionSort (fun x y => compareFn x y ≤ 0)

/-- An element of `reportData.categories`, and `reportData.topCategory`. -/
structure ReportCategory where
  name : String
  amount : String
  percentage : String
  deriving DecidableEq, Repr

/-- The object `reportData`. -/
structure ReportData where
  totalSpend : String
  categories : List ReportCategory
  topCategory : Option ReportCategory
  deriving DecidableEq, Repr

/-- The expression `((Number(amount) / totalSpend) * 100).toFixed(2)`. -/
def percentageOf (amount totalSpend : ℚ) : String :=
  toFixed2 (JSNum.mulFin (JSNum.divFin amount totalSpend) 100)

/-- The object built for one entry of `sortedCategories`. -/
def categoryOf (totalSpend : ℚ) (entry : String × ℚ) : ReportCategory :=
  { name := entry.1
    amount := toFixed2 (JSNum.fin entry.2)
    percentage := percentageOf entry.2 totalSpend }

/-- The function `generateAnalysisReport`: the value passed to
`setAnalysisReport`. -/
def generateAnalysisReport (nameSpend : List (String × ℚ)) : ReportData :=
  let totalSpend := totalSpendOf nameSpend
  let sorted := sortedCategories nameSpend
  { totalSpend := toFixed2 (JSNum.fin totalSpend)
    categories := sorted.map (categoryOf totalSpend)
    topCategory :=
      match sorted with
      | [] => none
      | first :: _ => some (categoryOf totalSpend first) }

/-- The relational operator `a > b`. -/
def JSNum.gt (a b : JSNum) : Bool := JSNum.lt b a

/-- The value of a digit of a hexadecimal, octal or binary literal, if the
code point is a digit of that radix. -/
def radixDigit (radix : ℕ) (c : Char) : Option ℕ :=
  let value : Option ℕ :=
    if c.isDigit then some (c.toNat - '0'.toNat)
    else if 'a'.toNat ≤ c.toNat ∧ c.toNat ≤ 'f'.toNat then some (c.toNat - 'a'.toNat + 10)
    else if 'A'.toNat ≤ c.toNat ∧ c.toNat ≤ 'F'.toNat then some (c.toNat - 'A'.toNat + 10)
    else none
  match value with
  | some v => if v < radix then some v else none
  | none => none

/-- The number that follows the `0x`, `0o` or `0b` of a literal: `NaN` unless
there is at least one digit and only digits of the radix. -/
def radixLiteral (radix : ℕ) (ds : List Char) : JSNum :=
  if ds = [] then JSNum.nan
  else
    match ds.foldl (fun acc c =>
        match acc, radixDigit radix c with
        | some a, some d => some (radix * a + d)
        | _, _ => none) (some 0) with
    | some v => JSNum.fin v
    | none => JSNum.nan

/-- The exponent of a literal that takes up the whole string: nothing at all,
or `e` or `E`, an optional sign and digits up to the end. -/
def exponentWhole : List Char → Option ℤ
  | [] => some 0
  | c :: r =>
    if c = 'e' ∨ c = 'E' then
      match r with
      | '+' :: r1 =>
        if r1 ≠ [] ∧ r1.all Char.isDigit = true then some (digitsValue r1 : ℤ) else none
      | '-' :: r1 =>
        if r1 ≠ [] ∧ r1.all Char.isDigit = true then some (-(digitsValue r1 : ℤ)) else none
      | _ =>
        if r ≠ [] ∧ r.all Char.isDigit = true then some (digitsValue r : ℤ) else none
    else none

/-- The unsigned part of a `StrDecimalLiteral` that takes up the whole string;
`none` when the string is not such a literal. -/
def unsignedLiteralWhole (cs : List Char) : Option (Option ℚ) :=
  if cs = "Infinity".data then some none
  else
    let intDigits := cs.takeWhile Char.isDigit
    let rest := cs.dropWhile Char.isDigit
    let fracDigits := match rest with
      | '.' :: r => r.takeWhile Char.isDigit
      | _ => []
    let rest2 := match rest with
      | '.' :: r => r.dropWhile Char.isDigit
      | _ => rest
    if intDigits = [] ∧ fracDigits = [] then none
    else
      match exponentWhole rest2 with
      | none => none
      | some e =>
        some (some (scale10 (digitsValue (intDigits ++ fracDigits)) (e - fracDigits.length)))

/-- The conversion `Number(string)`: white space is trimmed at both ends, the
empty string is 0, and what is left must be, as a whole, a signed decimal
literal or an unsigned hexadecimal, octal or binary literal. -/
def toNumber (s : String) : JSNum :=
  match (trim s).data with
  | [] => JSNum.fin 0
  | '0' :: 'x' :: r | '0' :: 'X' :: r => radixLiteral 16 r
  | '0' :: 'o' :: r | '0' :: 'O' :: r => radixLiteral 8 r
  | '0' :: 'b' :: r | '0' :: 'B' :: r => radixLiteral 2 r
  | cs =>
    let neg := match cs with
      | '-' :: _ => true
      | _ => false
    let body := match cs with
      | '-' :: r => r
      | '+' :: r => r
      | _ => cs
    match unsignedLiteralWhole body with
    | none => JSNum.nan
    | some none => if neg then JSNum.negInf else JSNum.posInf
    | some (some q) => JSNum.fin (if neg then -q else q)

/-- The `disabled` attribute of the `Create Budget` button: the global `isNaN`
converts the string `amount` with `Number`. -/
def createButtonDisabled (s : CreateBudgetState) : Bool :=
  !(decide (s.name ≠ "") && decide (s.amount ≠ "") && !(toNumber s.amount).isNaN &&
    JSNum.gt (parseFloat s.amount) (JSNum.fin 0) &&
    JSNum.strictEq (JSNum.mod (parseFloat s.amount) (JSNum.fin 1)) (JSNum.fin 0))

/-! ## `layout.jsx` -/

/-- A value read from a row of an aggregate query: `undefined`, `null` or a
number. -/
inductive JSValue where
  | undefined : JSValue
  | null : JSValue
  | number (x : JSNum) : JSValue
  deriving DecidableEq, Repr

/-- The conversion to a boolean: `undefined`, `null`, `NaN` and 0 are falsy. -/
def JSValue.truthy : JSValue → Bool
  | JSValue.number (JSNum.fin q) => decide (q ≠ 0)
  | JSValue.number JSNum.nan => false
  | JSValue.number _ => true
  | _ => false

/-- The operator `a || b`. -/
def JSValue.logicalOr (a b : JSValue) : JSValue := if a.truthy then a else b

/-- A row of `budgetResult`: `totalBudget` is `SUM(Budgets.amount)` mapped with
`Number`. -/
structure BudgetSumRow where
  totalBudget : JSValue
  deriving DecidableEq, Repr

/-- A row of `expenseResult`: `totalSpend` is `SUM(Expenses.amount)` mapped
with `Number`. -/
structure ExpenseSumRow where
  totalSpend : JSValue
  deriving DecidableEq, Repr

/-- The function `fetchUserBudgetData` of `DashboardLayout`, after its two
queries have returned `budgetResult` and `expenseResult`: the values passed to
`setTotalBudget` and to `setTotalExpense`. -/
def fetchUserBudgetData (budgetResult : List BudgetSumRow)
    (expenseResult : List ExpenseSumRow) : JSValue × JSValue :=
  let totalBudgetAmount :=
    JSValue.logicalOr
      (match budgetResult[0]? with
        | some row => row.totalBudget
        | none => JSValue.undefined)
      (JSValue.number (JSNum.fin 0))
  let totalExpenseAmount :=
    JSValue.logicalOr
      (match expenseResult[0]? with
        | some row => row.totalSpend
        | none => JSValue.undefined)
      (JSValue.number (JSNum.fin 0))
  (totalBudgetAmount, totalExpenseAmount)

/-! ## Properties of the form handlers -/

theorem dropWhile_all_eq_nil {α : Type} (p : α → Bool) (l : List α)
    (h : ∀ a ∈ l.dropWhile p, p a = true) : l.dropWhile p = [] := by
  induction l with
  | nil => rfl
  | cons a l ih =>
    by_cases ha : p a = true
    · simp only [List.dropWhile_cons_of_pos ha] at h ⊢
      exact ih h
    · exfalso
      rw [List.dropWhile_cons_of_neg ha] at h
      exact ha (h a (List.mem_cons_self a l))

theorem trim_eq_empty_iff (s : String) : trim s = "" ↔ blank s = true := by
  unfold trim blank
  rw [List.all_eq_true]
  constructor
  · intro h
    have h1 : ((s.data.dropWhile isWhiteSpace).reverse.dropWhile isWhiteSpace).reverse = [] := by
      have := congrArg String.data h
      simpa using this
    rw [List.reverse_eq_nil_iff, List.dropWhile_eq_nil_iff] at h1
    have h2 : s.data.dropWhile isWhiteSpace = [] :=
      dropWhile_all_eq_nil _ _ (fun a ha => h1 a (List.mem_reverse.mpr ha))
    rw [List.dropWhile_eq_nil_iff] at h2
    exact h2
  · intro h
    have h2 : s.data.dropWhile isWhiteSpace = [] := List.dropWhile_eq_nil_iff.mpr h
    rw [h2]
    rfl

theorem parseFloat_empty : parseFloat "" = JSNum.nan := by decide

/-- The amount guard of `onCreateBudget` lets through exactly the inputs that
parse to a positive integer. -/
theorem amountGuard_iff (amount : String) :
    (amount = "" ∨ (parseFloat amount).isNaN = true ∨
        JSNum.le (parseFloat amount) (JSNum.fin 0) = true ∨
        JSNum.strictEq (JSNum.mod (parseFloat amount) (JSNum.fin 1)) (JSNum.fin 0) = false) ↔
      ¬ ∃ n : ℕ, 0 < n ∧ parseFloat amount = JSNum.fin n := by
  constructor
  · rintro h ⟨n, hn, hp⟩
    have hq : (0 : ℚ) < n := by exact_mod_cast hn
    rcases h with h | h | h | h
    · rw [h, parseFloat_empty] at hp
      exact JSNum.noConfusion hp
    · rw [hp] at h
      simp [JSNum.isNaN] at h
    · rw [hp] at h
      simp only [JSNum.le, decide_eq_true_eq] at h
      linarith
    · rw [hp] at h
      simp [JSNum.mod, JSNum.strictEq] at h
  · intro h
    cases hx : parseFloat amount with
    | nan => right; left; rfl
    | posInf => right; right; right; rfl
    | negInf => right; right; left; rfl
    | fin q =>
      by_cases hq : q ≤ 0
      · right; right; left
        simp [JSNum.le, hq]
      · right; right; right
        push_neg at hq
        simp only [JSNum.mod, JSNum.strictEq, one_ne_zero, if_false, div_one, hq.le, if_true,
          one_mul, decide_eq_false_iff_not]
        intro h0
        apply h
        refine ⟨⌊q⌋.toNat, ?_, ?_⟩
        · have : (0:ℤ) < ⌊q⌋ := by
            have : (0:ℚ) < ⌊q⌋ := by linarith
            exact_mod_cast this
          omega
        · rw [hx]
          congr 1
          have hfl : (0:ℤ) ≤ ⌊q⌋ := Int.floor_nonneg.mpr hq.le
          have : ((⌊q⌋.toNat : ℤ) : ℚ) = (⌊q⌋ : ℚ) := by
            rw [Int.toNat_of_nonneg hfl]
          have h3 : ((⌊q⌋.toNat : ℕ) : ℚ) = ((⌊q⌋.toNat : ℤ) : ℚ) := by norm_cast
          rw [h3, this]
          linarith

theorem isDigit_toNat (c : Char) (h : c.isDigit = true) : 48 ≤ c.toNat ∧ c.toNat ≤ 57 := by
  simp only [Char.isDigit, Bool.and_eq_true, decide_eq_true_eq] at h
  exact h

theorem isDigit_not_whiteSpace (c : Char) (h : c.isDigit = true) : isWhiteSpace c = false := by
  have hb := isDigit_toNat c h
  simp only [isWhiteSpace, Bool.or_eq_false_iff, decide_eq_false_iff_not, Bool.and_eq_false_iff]
  omega

theorem isDigit_ne (c d : Char) (h : c.isDigit = true) (hd : d.isDigit = false) : c ≠ d := by
  intro e
  rw [e, hd] at h
  exact Bool.noConfusion h

/-- An amount input made of decimal digits only denotes the integer it spells. -/
theorem parseFloat_digits (ds : List Char) (hne : ds ≠ []) (hd : ∀ c ∈ ds, c.isDigit = true) :
    parseFloat ⟨ds⟩ = JSNum.fin (digitsValue ds) := by
  obtain ⟨c, t, rfl⟩ := List.exists_cons_of_ne_nil hne
  have hc : c.isDigit = true := hd c (List.mem_cons_self c t)
  have hws : isWhiteSpace c = false := isDigit_not_whiteSpace c hc
  have hminus : c ≠ '-' := isDigit_ne c '-' hc (by decide)
  have hplus : c ≠ '+' := isDigit_ne c '+' hc (by decide)
  have hI : c ≠ 'I' := isDigit_ne c 'I' hc (by decide)
  have htake : (c :: t).takeWhile Char.isDigit = c :: t := List.takeWhile_eq_self_iff.mpr hd
  have hdrop : (c :: t).dropWhile Char.isDigit = [] := List.dropWhile_eq_nil_iff.mpr hd
  have hdw : (c :: t).dropWhile isWhiteSpace = c :: t := by
    simp [List.dropWhile, hws]
  have hbody : (match (c :: t) with
      | '-' :: r => r
      | '+' :: r => r
      | _ => c :: t) = c :: t := by
    split
    · rename_i r h
      injection h with h1 _
      exact absurd h1 hminus
    · rename_i r h
      injection h with h1 _
      exact absurd h1 hplus
    · rfl
  have hneg : (match (c :: t) with
      | '-' :: _ => true
      | _ => false) = false := by
    split
    · rename_i r h
      injection h with h1 _
      exact absurd h1 hminus
    · rfl
  have hinf : "Infinity".data.isPrefixOf (c :: t) = false := by
    have : "Infinity".data = 'I' :: "nfinity".data := rfl
    rw [this]
    have hIc : ('I' == c) = false := by
      rw [beq_eq_false_iff_ne]
      exact fun h => hI h.symm
    simp [List.isPrefixOf, hIc]
  have hlit : unsignedLiteral (c :: t) = some (some (digitsValue (c :: t) : ℚ)) := by
    unfold unsignedLiteral
    simp only [hinf, htake, hdrop, Bool.false_eq_true, if_false]
    simp [exponentPart, scale10]
  unfold parseFloat
  simp only [hdw, hbody, hneg, hlit]
  rfl

/-- C3: a run of `onCreateBudget` that fails (database handle missing, blank
name, invalid amount, insert that throws or returns no result) shows a failure
notice, does not call `refreshData` and leaves `openDialog` as it was; a
validation failure issues no insert. Whenever the dialog is closed, an insert
was issued and returned a result. -/
theorem onCreateBudget_failure_frame (env : CreateBudgetEnv) (s : CreateBudgetState) :
    ((env.dbReady = false ∨ blank s.name = true ∨
        (¬ ∃ n : ℕ, 0 < n ∧ parseFloat s.amount = JSNum.fin n) ∨
        env.insertOutcome ⟨s.name, parseFloat s.amount, env.userEmail, s.emojiIcon⟩ =
          DbOutcome.throws ∨
        env.insertOutcome ⟨s.name, parseFloat s.amount, env.userEmail, s.emojiIcon⟩ =
          DbOutcome.returns false) →
      (∃ m ∈ createFailureNotices, Effect.toast m ∈ onCreateBudget env s) ∧
        Effect.refreshData ∉ onCreateBudget env s ∧
        (∀ b, Effect.setOpenDialog b ∉ onCreateBudget env s) ∧
        openDialogAfter s.openDialog (onCreateBudget env s) = s.openDialog) ∧
    ((env.dbReady = false ∨ blank s.name = true ∨
        ¬ ∃ n : ℕ, 0 < n ∧ parseFloat s.amount = JSNum.fin n) →
      ∀ values, Effect.insert values ∉ onCreateBudget env s) ∧
    (∀ b, Effect.setOpenDialog b ∈ onCreateBudget env s →
      b = false ∧ ∃ values, Effect.insert values ∈ onCreateBudget env s ∧
        env.insertOutcome values = DbOutcome.returns true) := by
  unfold onCreateBudget
  by_cases hdb : env.dbReady = true
  · by_cases hname : s.name = "" ∨ trim s.name = ""
    · simp [hdb, hname, createFailureNotices, openDialogAfter]
    · have hblank : ¬ blank s.name = true :=
        fun hb => hname (Or.inr ((trim_eq_empty_iff _).mpr hb))
      by_cases hg : s.amount = "" ∨ (parseFloat s.amount).isNaN = true ∨
          JSNum.le (parseFloat s.amount) (JSNum.fin 0) = true ∨
          JSNum.strictEq (JSNum.mod (parseFloat s.amount) (JSNum.fin 1)) (JSNum.fin 0) = false
      · simp only [hdb, hname, hg, Bool.not_true, Bool.false_eq_true, if_false, if_true]
        simp [createFailureNotices, openDialogAfter]
      · have hvalid := (not_congr (amountGuard_iff s.amount)).mp hg
        simp only [hdb, hname, hg, Bool.not_true, Bool.false_eq_true, if_false]
        cases hout : env.insertOutcome ⟨s.name, parseFloat s.amount, env.userEmail, s.emojiIcon⟩ with
        | throws => simp [hblank, hvalid, createFailureNotices, openDialogAfter]
        | returns t =>
          cases t with
          | false => simp [hblank, hvalid, createFailureNotices, openDialogAfter]
          | true => simp [hblank, hvalid, hout]
  · simp [hdb, createFailureNotices, openDialogAfter]

/-- The witness of C3: an insert that throws, with the dialog open. -/
theorem onCreateBudget_failure_frame_witness :
    (∃ m ∈ createFailureNotices, Effect.toast m ∈
        onCreateBudget ⟨true, some "a@b.c", fun _ => DbOutcome.throws⟩
          ⟨"😀", "Food", "5000", true⟩) ∧
      Effect.refreshData ∉
        onCreateBudget ⟨true, some "a@b.c", fun _ => DbOutcome.throws⟩
          ⟨"😀", "Food", "5000", true⟩ ∧
      (∀ b, Effect.setOpenDialog b ∉
        onCreateBudget ⟨true, some "a@b.c", fun _ => DbOutcome.throws⟩
          ⟨"😀", "Food", "5000", true⟩) ∧
      openDialogAfter true
        (onCreateBudget ⟨true, some "a@b.c", fun _ => DbOutcome.throws⟩
          ⟨"😀", "Food", "5000", true⟩) = true :=
  (onCreateBudget_failure_frame ⟨true, some "a@b.c", fun _ => DbOutcome.throws⟩
    ⟨"😀", "Food", "5000", true⟩).1 (Or.inr (Or.inr (Or.inr (Or.inl rfl))))

theorem ownEntries_perm (obj : List (String × ℚ)) : (ownEntries obj).Perm obj := by
  unfold ownEntries
  have h1 := List.perm_insertionSort
    (fun a b : String × ℚ => (arrayIndex a.1).getD 0 ≤ (arrayIndex b.1).getD 0)
    (obj.filter (fun e => (arrayIndex e.1).isSome))
  have h2 : obj.filter (fun e => (arrayIndex e.1).isNone) =
      obj.filter (fun e => !(arrayIndex e.1).isSome) := by
    congr 1
    funext e
    cases arrayIndex e.1 <;> rfl
  rw [h2]
  exact (h1.append_right _).trans (List.filter_append_perm _ obj)

theorem sortedCategories_perm (nameSpend : List (String × ℚ)) :
    (sortedCategories nameSpend).Perm nameSpend :=
  (List.perm_insertionSort _ _).trans (ownEntries_perm nameSpend)

theorem sortedCategories_sorted (nameSpend : List (String × ℚ)) :
    (sortedCategories nameSpend).Sorted (fun x y => y.2 ≤ x.2) := by
  haveI : IsTotal (String × ℚ) (fun x y => compareFn x y ≤ 0) :=
    ⟨fun x y => by
      simp only [compareFn]
      rcases le_total x.2 y.2 with h | h
      · right; linarith
      · left; linarith⟩
  haveI : IsTrans (String × ℚ) (fun x y => compareFn x y ≤ 0) :=
    ⟨fun x y z h1 h2 => by
      simp only [compareFn] at h1 h2 ⊢
      linarith⟩
  have h := List.sorted_insertionSort (fun x y : String × ℚ => compareFn x y ≤ 0)
    (ownEntries nameSpend)
  refine List.Pairwise.imp ?_ h
  intro x y hxy
  simp only [compareFn] at hxy
  linarith

/-! ### Scaling -/

theorem categories_eq (nameSpend : List (String × ℚ)) :
    (generateAnalysisReport nameSpend).categories =
      (sortedCategories nameSpend).map (categoryOf (totalSpendOf nameSpend)) := rfl

theorem topCategory_eq_head (nameSpend : List (String × ℚ)) :
    (generateAnalysisReport nameSpend).topCategory =
      (generateAnalysisReport nameSpend).categories.head? := by
  unfold generateAnalysisReport
  cases sortedCategories nameSpend <;> rfl

/-- C8: the categories of `generateAnalysisReport` are the groups, permuted
into non-increasing order of amount; `topCategory` is the first category, null
exactly when there is no group, and the amount of its group is at least the
amount of every group. -/
theorem generateAnalysisReport_sorted (nameSpend : List (String × ℚ)) :
    ∃ sorted : List (String × ℚ),
      sorted.Perm nameSpend ∧ sorted.Sorted (fun x y => y.2 ≤ x.2) ∧
      (generateAnalysisReport nameSpend).categories.map (fun c => (c.name, c.amount)) =
        sorted.map (fun e => (e.1, toFixed2 (JSNum.fin e.2))) ∧
      (generateAnalysisReport nameSpend).topCategory =
        (generateAnalysisReport nameSpend).categories.head? ∧
      ((generateAnalysisReport nameSpend).topCategory = none ↔ nameSpend = []) ∧
      ∀ first ∈ sorted.head?, ∀ e ∈ nameSpend, e.2 ≤ first.2 := by
  refine ⟨sortedCategories nameSpend, sortedCategories_perm nameSpend,
    sortedCategories_sorted nameSpend, ?_, topCategory_eq_head nameSpend, ?_, ?_⟩
  · rw [categories_eq, List.map_map]
    rfl
  · rw [topCategory_eq_head, categories_eq]
    have hp := sortedCategories_perm nameSpend
    cases hs : sortedCategories nameSpend with
    | nil =>
      rw [hs] at hp
      simp [hp.nil_eq.symm]
    | cons a l =>
      rw [hs] at hp
      simp only [List.map_cons, List.head?_cons]
      constructor
      · intro h
        cases h
      · intro h
        rw [h] at hp
        exact absurd hp.eq_nil (List.cons_ne_nil _ _)
  · intro first hfirst e he
    have hp := sortedCategories_perm nameSpend
    have hsorted := sortedCategories_sorted nameSpend
    cases hs : sortedCategories nameSpend with
    | nil =>
      rw [hs] at hfirst
      cases hfirst
    | cons a l =>
      rw [hs] at hfirst hp hsorted
      simp only [List.head?_cons, Option.mem_def, Option.some.injEq] at hfirst
      subst hfirst
      rcases List.mem_cons.mp (hp.mem_iff.mpr he) with h | h
      · rw [h]
      · exact List.rel_of_sorted_cons hsorted e h

theorem logicalOr_zero_eq (v : JSValue) :
    JSValue.logicalOr v (JSValue.number (JSNum.fin 0)) =
      match v with
      | JSValue.number JSNum.nan => JSValue.number (JSNum.fin 0)
      | JSValue.number x => JSValue.number x
      | _ => JSValue.number (JSNum.fin 0) := by
  cases v with
  | undefined => rfl
  | null => rfl
  | number x =>
    cases x with
    | nan => rfl
    | posInf => rfl
    | negInf => rfl
    | fin q =>
      by_cases hq : q = 0
      · simp [JSValue.logicalOr, JSValue.truthy, hq]
      · simp [JSValue.logicalOr, JSValue.truthy, hq]

theorem logicalOr_zero_number (v : JSValue) :
    ∃ x, JSValue.logicalOr v (JSValue.number (JSNum.fin 0)) = JSValue.number x ∧
      x ≠ JSNum.nan := by
  rw [logicalOr_zero_eq]
  cases v with
  | undefined => exact ⟨_, rfl, by simp⟩
  | null => exact ⟨_, rfl, by simp⟩
  | number x =>
    cases x with
    | nan => exact ⟨_, rfl, by simp⟩
    | posInf => exact ⟨_, rfl, by simp⟩
    | negInf => exact ⟨_, rfl, by simp⟩
    | fin q => exact ⟨_, rfl, by simp⟩

theorem fetchUserBudgetData_fst_cons (row : BudgetSumRow) (rest : List BudgetSumRow)
    (expenseResult : List ExpenseSumRow) :
    (fetchUserBudgetData (row :: rest) expenseResult).1 =
      JSValue.logicalOr row.totalBudget (JSValue.number (JSNum.fin 0)) := by
  simp [fetchUserBudgetData]

theorem fetchUserBudgetData_snd_cons (budgetResult : List BudgetSumRow) (row : ExpenseSumRow)
    (rest : List ExpenseSumRow) :
    (fetchUserBudgetData budgetResult (row :: rest)).2 =
      JSValue.logicalOr row.totalSpend (JSValue.number (JSNum.fin 0)) := by
  simp [fetchUserBudgetData]

/-- C11: when the budget query has no row, or the sum of its first row is
`null`, `undefined` or `NaN`, `fetchUserBudgetData` exposes the number 0 as the
total budget; when the sum is any other number it exposes that number; the
total exposed is always a number other than `NaN`. The same holds of the total
expense and the expense query. -/
theorem fetchUserBudgetData_totals (budgetResult : List BudgetSumRow)
    (expenseResult : List ExpenseSumRow) :
    ((budgetResult = [] ∨ ∃ row rest, budgetResult = row :: rest ∧
        (row.totalBudget = JSValue.null ∨ row.totalBudget = JSValue.undefined ∨
          row.totalBudget = JSValue.number JSNum.nan)) →
      (fetchUserBudgetData budgetResult expenseResult).1 = JSValue.number (JSNum.fin 0)) ∧
    (∀ row rest x, budgetResult = row :: rest → row.totalBudget = JSValue.number x →
      x ≠ JSNum.nan → (fetchUserBudgetData budgetResult expenseResult).1 = JSValue.number x) ∧
    (∃ x, (fetchUserBudgetData budgetResult expenseResult).1 = JSValue.number x ∧
      x ≠ JSNum.nan) ∧
    ((expenseResult = [] ∨ ∃ row rest, expenseResult = row :: rest ∧
        (row.totalSpend = JSValue.null ∨ row.totalSpend = JSValue.undefined ∨
          row.totalSpend = JSValue.number JSNum.nan)) →
      (fetchUserBudgetData budgetResult expenseResult).2 = JSValue.number (JSNum.fin 0)) ∧
    (∀ row rest x, expenseResult = row :: rest → row.totalSpend = JSValue.number x →
      x ≠ JSNum.nan → (fetchUserBudgetData budgetResult expenseResult).2 = JSValue.number x) ∧
    (∃ x, (fetchUserBudgetData budgetResult expenseResult).2 = JSValue.number x ∧
      x ≠ JSNum.nan) := by
  have hnum : ∀ x : JSNum, x ≠ JSNum.nan →
      JSValue.logicalOr (JSValue.number x) (JSValue.number (JSNum.fin 0)) = JSValue.number x := by
    intro x hx
    rw [logicalOr_zero_eq]
    cases x with
    | nan => exact absurd rfl hx
    | posInf => rfl
    | negInf => rfl
    | fin q => rfl
  refine ⟨?_, ?_, logicalOr_zero_number _, ?_, ?_, logicalOr_zero_number _⟩
  · rintro (h | ⟨row, rest, h, hv⟩)
    · subst h
      rfl
    · subst h
      rw [fetchUserBudgetData_fst_cons]
      rcases hv with hv | hv | hv <;> rw [hv] <;> rfl
  · intro row rest x h hv hx
    subst h
    rw [fetchUserBudgetData_fst_cons, hv]
    exact hnum x hx
  · rintro (h | ⟨row, rest, h, hv⟩)
    · subst h
      rfl
    · subst h
      rw [fetchUserBudgetData_snd_cons]
      rcases hv with hv | hv | hv <;> rw [hv] <;> rfl
  · intro row rest x h hv hx
    subst h
    rw [fetchUserBudgetData_snd_cons, hv]
    exact hnum x hx

/-- The witness of C11: a budget query whose sum is `null` and an expense query
whose sum is 5. -/
theorem fetchUserBudgetData_totals_witness :
    (fetchUserBudgetData [⟨JSValue.null⟩] [⟨JSValue.number (JSNum.fin 5)⟩]).1 =
        JSValue.number (JSNum.fin 0) ∧
      (fetchUserBudgetData [⟨JSValue.null⟩] [⟨JSValue.number (JSNum.fin 5)⟩]).2 =
        JSValue.number (JSNum.fin 5) :=
  ⟨(fetchUserBudgetData_totals [⟨JSValue.null⟩] [⟨JSValue.number (JSNum.fin 5)⟩]).1
      (Or.inr ⟨⟨JSValue.null⟩, [], rfl, Or.inl rfl⟩),
    (fetchUserBudgetData_totals [⟨JSValue.null⟩] [⟨JSValue.number (JSNum.fin 5)⟩]).2.2.2.2.1
      ⟨JSValue.number (JSNum.fin 5)⟩ [] (JSNum.fin 5) rfl rfl (by simp)⟩

/-! ## Properties of the submit button -/

/-- With the database available, a name that is not blank and an amount that
parses to a positive integer, `onCreateBudget` shows neither validation notice
and issues the insert. -/
theorem onCreateBudget_validation_passes (env : CreateBudgetEnv) (s : CreateBudgetState)
    (hname : trim s.name ≠ "") (hamount : ∃ n : ℕ, 0 < n ∧ parseFloat s.amount = JSNum.fin n) :
    Effect.toast "Please enter a valid budget name." ∉ onCreateBudget env s ∧
    Effect.toast "Please enter a valid budget amount (positive integer, no decimals)." ∉
      onCreateBudget env s ∧
    (env.dbReady = true → ∃ rest, onCreateBudget env s =
      Effect.insert ⟨s.name, parseFloat s.amount, env.userEmail, s.emojiIcon⟩ :: rest) := by
  have hguard := (not_congr (amountGuard_iff s.amount)).mpr (not_not.mpr hamount)
  have hname2 : ¬ (s.name = "" ∨ trim s.name = "") := by
    rintro (h | h)
    · apply hname
      rw [h]
      rfl
    · exact hname h
  unfold onCreateBudget
  by_cases hdb : env.dbReady = true
  · simp only [hdb, hname2, hguard, Bool.not_true, Bool.false_eq_true, if_false]
    cases env.insertOutcome ⟨s.name, parseFloat s.amount, env.userEmail, s.emojiIcon⟩ with
    | throws => simp
    | returns t => cases t <;> simp
  · simp [hdb]

/-- C12: when the `Create Budget` button is enabled and the name is not blank,
the validation of `onCreateBudget` accepts the input: the amount parses to a
positive integer, neither validation notice is shown and, with the database
available, the insert is issued. The converse fails: with the amount `12abc`
the handler issues the insert, and the button is disabled. -/
theorem createButton_enabled_accepted :
    (∀ (env : CreateBudgetEnv) (s : CreateBudgetState),
      createButtonDisabled s = false → trim s.name ≠ "" →
        (∃ n : ℕ, 0 < n ∧ parseFloat s.amount = JSNum.fin n) ∧
        Effect.toast "Please enter a valid budget name." ∉ onCreateBudget env s ∧
        Effect.toast "Please enter a valid budget amount (positive integer, no decimals)." ∉
          onCreateBudget env s ∧
        (env.dbReady = true → ∃ rest, onCreateBudget env s =
          Effect.insert ⟨s.name, parseFloat s.amount, env.userEmail, s.emojiIcon⟩ :: rest)) ∧
    (createButtonDisabled ⟨"😀", "Food", "12abc", true⟩ = true ∧
      ∀ env : CreateBudgetEnv, env.dbReady = true →
        ∃ rest, onCreateBudget env ⟨"😀", "Food", "12abc", true⟩ =
          Effect.insert ⟨"Food", JSNum.fin 12, env.userEmail, "😀"⟩ :: rest) := by
  constructor
  · intro env s henabled hname
    have hamount : ∃ n : ℕ, 0 < n ∧ parseFloat s.amount = JSNum.fin n := by
      rw [← not_not (a := ∃ n : ℕ, 0 < n ∧ parseFloat s.amount = JSNum.fin n),
        ← amountGuard_iff]
      simp only [createButtonDisabled, Bool.not_eq_false', Bool.and_eq_true, decide_eq_true_eq,
        Bool.not_eq_true', ne_eq] at henabled
      obtain ⟨⟨⟨⟨-, hne⟩, hnan⟩, hgt⟩, hmod⟩ := henabled
      rintro (h | h | h | h)
      · exact hne h
      · cases hx : parseFloat s.amount with
        | nan =>
          rw [hx] at hgt
          exact Bool.noConfusion hgt
        | posInf => rw [hx] at h; exact Bool.noConfusion h
        | negInf => rw [hx] at h; exact Bool.noConfusion h
        | fin q => rw [hx] at h; exact Bool.noConfusion h
      · cases hx : parseFloat s.amount with
        | nan => rw [hx] at hgt; exact Bool.noConfusion hgt
        | posInf => rw [hx] at h; exact Bool.noConfusion h
        | negInf => rw [hx] at hgt; exact Bool.noConfusion hgt
        | fin q =>
          rw [hx] at h hgt
          simp only [JSNum.gt, JSNum.lt, JSNum.le, decide_eq_true_eq] at h hgt
          linarith
      · rw [hmod] at h
        exact Bool.noConfusion h
    exact ⟨hamount, onCreateBudget_validation_passes env s hname hamount⟩
  · have hp : parseFloat "12abc" = JSNum.fin ((12 : ℕ) : ℚ) := by with_unfolding_all decide
    refine ⟨by with_unfolding_all decide, ?_⟩
    intro env hdb
    have h := (onCreateBudget_validation_passes env ⟨"😀", "Food", "12abc", true⟩ (by decide)
      ⟨12, by decide, hp⟩).2.2 hdb
    have hp2 : parseFloat "12abc" = JSNum.fin 12 := by
      rw [hp]
      norm_num
    simpa [hp2] using h

/-- The witness of C12: the name `Food` and the amount `50`, for which the
button is enabled. -/
theorem createButton_enabled_accepted_witness :
    createButtonDisabled ⟨"😀", "Food", "50", true⟩ = false ∧ trim "Food" ≠ "" ∧
      ∃ n : ℕ, 0 < n ∧ parseFloat "50" = JSNum.fin n :=
  have h1 : createButtonDisabled ⟨"😀", "Food", "50", true⟩ = false := by
    with_unfolding_all decide
  have h2 : trim "Food" ≠ "" := by decide
  ⟨h1, h2, (createButton_enabled_accepted.1 ⟨true, some "a@b.c", fun _ => DbOutcome.returns true⟩
    ⟨"😀", "Food", "50", true⟩ h1 h2).1⟩

end Expensify
